import Mathlib

/-
Verification development for a flashcard-application mockup repository.

The repository has two independent pieces:
 * `backend.py` — a SQLite persistence helper (`create_db`, `add_deck`,
   `add_card_type`, `add_card`) operating on single-row inserts;
 * `frontend.py` — a Qt "Decks" window mockup (deck tree, counts table,
   cross-pane selection synchronisation, a toolbar state machine).

This file shallowly embeds both pieces.  The relational store is embedded as
a list of named tables holding rows of dynamically-typed SQL values (SQLite
is dynamically typed); wall-clock readings (`time.time()`) and GUI-toolkit
availability are passed in as explicit parameters.  Every definition follows
the source line by line — in particular `add_card` reproduces the source's
column-list/value-tuple order exactly as written.
-/

namespace Backend

/-- SqlValue models a dynamically typed SQLite cell: SQLite stores whatever
value is bound to a parameter regardless of the declared column type. -/
inductive SqlValue where
  | null : SqlValue
  | int : Int → SqlValue
  | text : String → SqlValue
deriving DecidableEq, Repr

/-- Table models one SQLite table: its name, its declared column order
(from the CREATE TABLE statement), and its rows in insertion order. -/
structure Table where
  name : String
  columns : List String
  rows : List (List SqlValue)
deriving DecidableEq, Repr

/-- Database models the file-backed store `main.db` as its list of tables. -/
structure Database where
  tables : List Table
deriving DecidableEq, Repr

/-- hasTable reports whether a table of the given name exists, as SQLite
checks before executing CREATE TABLE / INSERT. -/
def hasTable (db : Database) (tname : String) : Bool :=
  db.tables.any (fun t => t.name == tname)

/-- createTable models `CREATE TABLE [IF NOT EXISTS]`: with the flag set
(as all three statements in `create_db` are written) an existing table is
left untouched; without it SQLite would raise `table ... already exists`;
otherwise the new, empty table is appended. -/
def createTable (db : Database) (t : Table) (ifNotExists : Bool) : Except String Database :=
  if hasTable db t.name then
    if ifNotExists then .ok db
    else .error ("table " ++ t.name ++ " already exists")
  else .ok ⟨db.tables ++ [t]⟩

/-- decksTable: the `decks` table of backend.py lines 10-17
(id, name, parent_deck_id). -/
def decksTable : Table :=
  ⟨"decks", ["id", "name", "parent_deck_id"], []⟩

/-- cardTypesTable: the `card_types` table of backend.py lines 19-26
(id, fields, tags, modified_at). -/
def cardTypesTable : Table :=
  ⟨"card_types", ["id", "fields", "tags", "modified_at"], []⟩

/-- cardsTable: the `cards` table of backend.py lines 28-42. -/
def cardsTable : Table :=
  ⟨"cards",
   ["id", "card_type_id", "deck_id", "card_ord", "created_at", "next_due",
    "template_front", "template_back", "is_active"], []⟩

/-- create_db (backend.py lines 5-45): issue the three
`CREATE TABLE IF NOT EXISTS` statements in order, then commit and close. -/
def create_db (db : Database) : Except String Database := do
  let db1 ← createTable db decksTable true
  let db2 ← createTable db1 cardTypesTable true
  createTable db2 cardsTable true

/-- defaultFor gives the value a column receives when the INSERT statement
does not mention it: the `id` columns are INTEGER PRIMARY KEY AUTOINCREMENT
(under this repository's insert-only workload the fresh rowid is row-count
plus one), `cards.is_active` is declared `BOOLEAN DEFAULT 1`, and every
other column defaults to NULL. -/
def defaultFor (tname c : String) (rowId : Int) : SqlValue :=
  if c == "id" then .int rowId
  else if tname == "cards" && c == "is_active" then .int 1
  else .null

/-- buildRow lays out an inserted row in the table's declared column order:
a column named in the INSERT's column list receives the value at the same
position of the VALUES tuple, any other column its default. -/
def buildRow (tname : String) (tableCols insertCols : List String)
    (vals : List SqlValue) (rowId : Int) : List SqlValue :=
  tableCols.map (fun c =>
    match insertCols.findIdx? (fun c2 => c2 == c) with
    | some i => vals.getD i .null
    | none => defaultFor tname c rowId)

/-- newRowId: the rowid the next insert into the named table produces
(`cursor.lastrowid` after the insert). -/
def newRowId (db : Database) (tname : String) : Int :=
  match db.tables.find? (fun t => t.name == tname) with
  | some t => Int.ofNat t.rows.length + 1
  | none => 0

/-- insertRow models executing one `INSERT INTO tname (insertCols) VALUES
(vals)` followed by commit: it faults with `no such table` when the target
table does not exist, otherwise appends the laid-out row and returns the new
store together with `cursor.lastrowid`. -/
def insertRow (db : Database) (tname : String) (insertCols : List String)
    (vals : List SqlValue) : Except String (Database × Int) :=
  if hasTable db tname then
    .ok (⟨db.tables.map (fun t =>
            if t.name == tname then
              { t with rows := t.rows ++
                  [buildRow tname t.columns insertCols vals (Int.ofNat t.rows.length + 1)] }
            else t)⟩,
         newRowId db tname)
  else .error ("no such table: " ++ tname)

/-- add_card_type (backend.py lines 57-73): serialise the field mapping
(`fields_json` stands for `json.dumps(fields_dict)`), stamp the current time
(`modified_at` stands for `int(time.time())`), and execute
`INSERT INTO notes (fields, tags, modified_at) VALUES (?, ?, ?)`,
returning `cursor.lastrowid`.  The target table name `notes` is copied
verbatim from line 65 of the source. -/
def add_card_type (db : Database) (fields_json : String) (tags : Option String)
    (modified_at : Int) : Except String (Database × Int) :=
  insertRow db "notes" ["fields", "tags", "modified_at"]
    [.text fields_json,
     (match tags with | some s => .text s | none => .null),
     .int modified_at]

/-- computeNextDue models line 80 of backend.py,
`next_due = next_due or created_at + 86400`: Python's `or` takes the
right-hand side when `next_due` is falsy, i.e. both when it is None and
when it is the integer 0. -/
def computeNextDue (next_due : Option Int) (created_at : Int) : Int :=
  match next_due with
  | none => created_at + 86400
  | some v => if v == 0 then created_at + 86400 else v

/-- add_card (backend.py lines 75-93): compute `created_at` (passed in,
standing for `int(time.time())`) and the defaulted `next_due`, then execute
the INSERT.  The column list and the VALUES tuple are transcribed exactly as
the source writes them (lines 82-90): the column list reads
(card_type_id, deck_id, card_ord, created_at, next_due, template_front,
template_back, is_active) while the tuple reads
(card_type_id, deck_id, int(is_active), card_ord, created_at, next_due,
template_front, template_back). -/
def add_card (db : Database) (card_type_id deck_id card_ord : Int)
    (template_front template_back : String) (next_due : Option Int)
    (is_active : Bool) (created_at : Int) : Except String (Database × Int) :=
  let nd := computeNextDue next_due created_at
  insertRow db "cards"
    ["card_type_id", "deck_id", "card_ord", "created_at", "next_due",
     "template_front", "template_back", "is_active"]
    [.int card_type_id, .int deck_id, .int (if is_active then 1 else 0), .int card_ord,
     .int created_at, .int nd, .text template_front, .text template_back]

/-- emptyDb: the store before any statement ran (a fresh `main.db`). -/
def emptyDb : Database := ⟨[]⟩

/-- initializedDb: the store after running the schema initializer once on a
fresh file, as `python backend.py` does. -/
def initializedDb : Database :=
  match create_db emptyDb with
  | .ok d => d
  | .error _ => emptyDb

/-- tableNamed looks a table up by name. -/
def tableNamed (db : Database) (tname : String) : Option Table :=
  db.tables.find? (fun t => t.name == tname)

/-- colValue reads one cell of a table: row `rowIdx` (0-based, insertion
order), column `col` (by declared name). -/
def colValue (t : Table) (rowIdx : Nat) (col : String) : Option SqlValue :=
  match t.rows.get? rowIdx, t.columns.findIdx? (fun c => c == col) with
  | some row, some i => row.get? i
  | _, _ => none

/-- storedCardField reads a named field of the first row of the `cards`
table. -/
def storedCardField (db : Database) (col : String) : Option SqlValue :=
  match tableNamed db "cards" with
  | some t => colValue t 0 col
  | none => none

/-- cardBugDb: the store after initialising a fresh file and then calling
`add_card(card_type_id=1, deck_id=2, card_ord=3, template_front="front",
template_back="back")` at a moment where `int(time.time())` returned 1000. -/
def cardBugDb : Database :=
  match add_card initializedDb 1 2 3 "front" "back" none true 1000 with
  | .ok (d, _) => d
  | .error _ => emptyDb

end Backend

namespace Frontend

/-- QtBackendChoice: which GUI toolkit binding the import fallback chain of
frontend.py selected. -/
inductive QtBackendChoice where
  | pyside6
  | pyqt5
deriving DecidableEq, Repr

/-- selectQtBackend (frontend.py lines 21-41): try importing PySide6; if
that import fails, try PyQt5; if that also fails, raise RuntimeError with
an installation instruction.  Whether each binding is importable is passed
in as a flag. -/
def selectQtBackend (pyside6Available pyqt5Available : Bool) :
    Except String QtBackendChoice :=
  if pyside6Available then .ok .pyside6
  else if pyqt5Available then .ok .pyqt5
  else .error "PySide6 or PyQt5 is required to run this script. Install with `pip install PySide6` or `pip install PyQt5`."

/-- lookupKey models a Python dict lookup for the `left_nodes` and
`right_nodes` dictionaries, both keyed by the tuple of path segments. -/
def lookupKey (m : List (List String × Nat)) (k : List String) : Option Nat :=
  match m.find? (fun e => e.1 == k) with
  | some e => some e.2
  | none => none

/-- RNode models one QTreeWidgetItem of the right-hand counts tree:
`id` is its creation order (standing for object identity), `name` its
column-0 text, `parent` the item it was created under (none for a
top-level item), and the three count-column texts (initially empty). -/
structure RNode where
  id : Nat
  name : String
  parent : Option Nat
  newText : String
  learnText : String
  dueText : String
deriving DecidableEq, Repr

/-- RState models the right-hand QTreeWidget build state of
`_populate_demo_decks`: the `right_nodes` dictionary (path tuple → item),
the created items in creation order (Qt keeps children of each parent in
creation order), and the next fresh identity. -/
structure RState where
  right_nodes : List (List String × Nat)
  nodes : List RNode
  nextId : Nat
deriving DecidableEq, Repr

/-- initRState: the state right after `self.deck_table.clear()` and
`right_nodes = []` (frontend.py lines 170-173). -/
def initRState : RState := ⟨[], [], 0⟩

/-- getOrCreateRightNodeAux is `get_or_create_right_node` of frontend.py
lines 203-217 with its recursion depth made explicit: each recursive call
drops the last path segment, so any depth bound of at least the path
length never runs out (the zero-depth arm of the multi-segment case is
then unreachable).  In every arm the memoised item for the full path key
is returned when present, exactly as the source checks
`if key in right_nodes` first; otherwise the item is created — as a
top-level item for a single-segment path, else under the recursively
obtained parent for the path without its last segment — recorded in
`right_nodes`, and returned.  On the empty path the source recurses
without progress and never returns, modelled as no result. -/
def getOrCreateRightNodeAux : Nat → RState → List String → Option (Nat × RState)
  | _, s, [] =>
      (match lookupKey s.right_nodes [] with
       | some n => some (n, s)
       | none => none)
  | _, s, [name] =>
      (match lookupKey s.right_nodes [name] with
       | some n => some (n, s)
       | none =>
           some (s.nextId,
             ⟨([name], s.nextId) :: s.right_nodes,
              s.nodes ++ [⟨s.nextId, name, none, "", "", ""⟩], s.nextId + 1⟩))
  | 0, s, a :: b :: rest =>
      (match lookupKey s.right_nodes (a :: b :: rest) with
       | some n => some (n, s)
       | none => none)
  | fuel2 + 1, s, a :: b :: rest =>
      (match lookupKey s.right_nodes (a :: b :: rest) with
       | some n => some (n, s)
       | none =>
           match getOrCreateRightNodeAux fuel2 s (a :: b :: rest).dropLast with
           | none => none
           | some (p, s1) =>
               some (s1.nextId,
                 ⟨(a :: b :: rest, s1.nextId) :: s1.right_nodes,
                  s1.nodes ++
                    [⟨s1.nextId, (a :: b :: rest).getLastD "", some p, "", "", ""⟩],
                  s1.nextId + 1⟩))

/-- getOrCreateRightNode runs the recursion with its exact depth bound.
On the empty path the source recurses without progress and never returns,
modelled as no result. -/
def getOrCreateRightNode (s : RState) (parts : List String) :
    Option (Nat × RState) :=
  getOrCreateRightNodeAux parts.length s parts

/-- setCountTexts models the three `node.setText` calls of frontend.py
lines 223-225: columns 1-3 of the item receive the decimal renderings of
the new/learning/due counts. -/
def setCountTexts (s : RState) (nid : Nat) (counts : Int × Int × Int) : RState :=
  ⟨s.right_nodes,
   s.nodes.map (fun n =>
     if n.id == nid then
       { n with newText := toString counts.1,
                learnText := toString counts.2.1,
                dueText := toString counts.2.2 }
     else n),
   s.nextId⟩

/-- fillCounts models the `# Fill counts` loop of frontend.py lines
220-225: for each (path, counts) entry, get or create the item for the
path and set its three count texts. -/
def fillCounts (s : RState) :
    List (List String × (Int × Int × Int)) → Option RState
  | [] => some s
  | (path, counts) :: rest =>
    match getOrCreateRightNode s path with
    | none => none
    | some (nid, s1) => fillCounts (setCountTexts s1 nid counts) rest

/-- demo: the hard-coded demonstration entries of frontend.py lines
156-163. -/
def demo : List (List String × (Int × Int × Int)) :=
  [(["Default"], (3, 1, 5)),
   (["Languages", "Japanese"], (7, 2, 13)),
   (["Languages", "Spanish"], (2, 0, 8)),
   (["Math", "Calculus", "Derivatives"], (1, 0, 0)),
   (["Math", "Calculus", "Integrals"], (0, 0, 4)),
   (["Misc"], (5, 4, 2))]

/-- demoRightState: the right-hand tree `_populate_demo_decks` builds from
the demo entries. -/
def demoRightState : RState := (fillCounts initRState demo).getD initRState

/-- mathEntries: the two-entry list of the C3 example, the Math rows of
the demo data. -/
def mathEntries : List (List String × (Int × Int × Int)) :=
  [(["Math", "Calculus", "Derivatives"], (1, 0, 0)),
   (["Math", "Calculus", "Integrals"], (0, 0, 4))]

/-- mathRightState: the right-hand tree built from the two Math entries
alone. -/
def mathRightState : RState := (fillCounts initRState mathEntries).getD initRState

/-- childrenOf: the child items of a parent (none stands for
`invisibleRootItem()`), in creation order, as `parent_item.child(i)`
enumerates them. -/
def childrenOf (s : RState) (parent : Option Nat) : List RNode :=
  s.nodes.filter (fun n => n.parent == parent)

/-- find_node_containing (frontend.py lines 252-257): linear scan over the
children of `parent_item`, returning the first whose column-0 text equals
the target name, else nothing. -/
def find_node_containing (s : RState) (parent : Option Nat)
    (target_name : String) : Option RNode :=
  (childrenOf s parent).find? (fun c => c.name == target_name)

/-- walkMatch models the walk of frontend.py lines 259-266: starting at
the invisible root, scan for each path segment among the current parent's
children; stop with no result at the first unmatched segment; after an
empty path the loop variable `match` is still None. -/
def walkMatch (s : RState) (parent : Option Nat) : List String → Option RNode
  | [] => none
  | [part] => find_node_containing s parent part
  | part :: p2 :: rest =>
      match find_node_containing s parent part with
      | none => none
      | some m => walkMatch s (some m.id) (p2 :: rest)

/-- SelResult: the observable outcome of the selection handler — which
right-pane item became current (`setCurrentItem`) and the status-bar
message shown. -/
structure SelResult where
  currentItem : Option Nat
  statusMsg : String
deriving DecidableEq, Repr

/-- onTreeSelectionChanged (frontend.py lines 237-273) after the path of
the selected left-tree node has been reconstructed into `path_parts`
(walking parent links upward, inserting each name at the front): walk the
right tree; on a full match make the found item current and report the
path, otherwise clear the selection and report that the deck was not
found. -/
def onTreeSelectionChanged (s : RState) (path_parts : List String) : SelResult :=
  match walkMatch s none path_parts with
  | some m => ⟨some m.id, "Selected deck: " ++ String.intercalate " / " path_parts⟩
  | none => ⟨none, "Selected deck not found on right pane"⟩

/-- nodesAtPath states what it means for the right tree to contain an item
at a root-to-leaf name path: all items reachable from the given parent by
matching each path segment against child names in turn. -/
def nodesAtPath (s : RState) (parent : Option Nat) : List String → List RNode
  | [] => []
  | [part] => (childrenOf s parent).filter (fun c => c.name == part)
  | part :: p2 :: rest =>
      ((childrenOf s parent).filter (fun c => c.name == part)).flatMap
        (fun m => nodesAtPath s (some m.id) (p2 :: rest))

/-- parentsList: the invisible root together with every created item, the
only parents under which children can ever be scanned. -/
def parentsList (s : RState) : List (Option Nat) :=
  none :: s.nodes.map (fun n => some n.id)

/-- uniqueSiblingNames: no two children of any one parent share a column-0
text.  Trees built by `_populate_demo_decks` have this shape, since both
builders memoise one item per distinct path. -/
def uniqueSiblingNames (s : RState) : Prop :=
  ∀ p ∈ parentsList s, ((childrenOf s p).map RNode.name).Nodup

instance (s : RState) : Decidable (uniqueSiblingNames s) :=
  inferInstanceAs
    (Decidable (∀ p ∈ parentsList s, ((childrenOf s p).map RNode.name).Nodup))

/-- LNode models one QStandardItem of the left deck tree: identity,
display text, parent item (none for a child of the invisible root).  The
bold font applied to top-level items (frontend.py lines 187-190) is
styling only and carries no tree structure. -/
structure LNode where
  id : Nat
  name : String
  parent : Option Nat
deriving DecidableEq, Repr

/-- LState models the left QStandardItemModel build state: the
`left_nodes` dictionary (path tuple → item), created items in creation
order, next fresh identity. -/
structure LState where
  left_nodes : List (List String × Nat)
  lnodes : List LNode
  nextId : Nat
deriving DecidableEq, Repr

/-- addLeftPath (frontend.py lines 179-193): walk one entry's path left to
right, growing `parent_key` one segment at a time; create the item under
the current parent only when its key is missing from `left_nodes`, then
descend into the item found at the key. -/
def addLeftPath (s : LState) (parent : Option Nat) (parent_key : List String) :
    List String → LState
  | [] => s
  | name :: rest =>
      let key := parent_key ++ [name]
      match lookupKey s.left_nodes key with
      | some n => addLeftPath s (some n) key rest
      | none =>
          let node : LNode := ⟨s.nextId, name, parent⟩
          let s1 : LState :=
            ⟨(key, s.nextId) :: s.left_nodes, s.lnodes ++ [node], s.nextId + 1⟩
          addLeftPath s1 (some s.nextId) key rest

/-- buildLeft: the left-model build loop of frontend.py lines 175-193,
run over a list of entries starting from an empty model. -/
def buildLeft (entries : List (List String × (Int × Int × Int))) : LState :=
  entries.foldl (fun s e => addLeftPath s none [] e.1) ⟨[], [], 0⟩

/-- UIState: the interface state the toolbar and selection interactions
touch — the checked state of the "Decks" action, the status-bar message,
the titles of opened blank windows, and the right pane's current item. -/
structure UIState where
  decksChecked : Bool
  statusMsg : String
  openWindows : List String
  rightCurrent : Option Nat
deriving DecidableEq, Repr

/-- initUIState: after `DecksWindow.__init__` — the Decks action is
created checkable and checked (lines 69-71), the status bar shows the
mockup hint (line 113), no blank window is open, and no right-pane item is
current (the initial `setCurrentIndex` on line 235 runs before the
selection handler is connected on line 119). -/
def initUIState : UIState :=
  ⟨true, "Mockup: left = deck tree, right = counts (New/Learn/Due)", [], none⟩

/-- UIEvent: the interface interactions wired up in `DecksWindow.__init__`
(lines 119-125): clicking one of the four toolbar actions, or selecting a
left-tree node (given by its reconstructed path). -/
inductive UIEvent where
  | clickDecks
  | clickAdd
  | clickBrowse
  | clickStats
  | selectTreePath (path_parts : List String)
deriving DecidableEq, Repr

/-- on_decks_toggled (frontend.py lines 280-284): unconditionally set the
Decks action back to checked and show the main-view status message. -/
def on_decks_toggled (s : UIState) : UIState :=
  { s with decksChecked := true, statusMsg := "Decks (main view)" }

/-- open_blank_window (frontend.py lines 275-278): open a non-modal blank
dialog with the given title. -/
def open_blank_window (s : UIState) (title : String) : UIState :=
  { s with openWindows := s.openWindows ++ [title] }

/-- uiStep: one interface interaction.  Clicking the checkable Decks
action first lets Qt toggle its checked state, then runs the connected
`_on_decks_toggled` handler; the other three actions open blank windows;
a tree selection runs the synchronisation handler against the built right
tree. -/
def uiStep (s : UIState) : UIEvent → UIState
  | .clickDecks => on_decks_toggled { s with decksChecked := !s.decksChecked }
  | .clickAdd => open_blank_window s "Add"
  | .clickBrowse => open_blank_window s "Browse"
  | .clickStats => open_blank_window s "Stats"
  | .selectTreePath path_parts =>
      let r := onTreeSelectionChanged demoRightState path_parts
      { s with rightCurrent := r.currentItem, statusMsg := r.statusMsg }

/-- CountColumn: which count column of a terminal deck row a value belongs
to. -/
inductive CountColumn where
  | new
  | learning
  | due
deriving DecidableEq, Repr

/-- CountColor: the colours of the count-rendering policy — one neutral
tone and one fixed accent per column. -/
inductive CountColor where
  | neutralGray
  | accentNew
  | accentLearning
  | accentDue
deriving DecidableEq, Repr

/-- Modelled from the spec: the count colour policy of the first
presentation variant, missing from the source tree (only frontend.py, the
"second implementation variant" of spec section 4.3, is present, and it
renders counts with plain `setText` and no colour logic).  Spec section
4.2: "a zero value renders in a neutral/gray tone; a nonzero new count
renders in one accent color, learning in a second, due in a third — these
are fixed, non-configurable associations between column identity and
color." -/
def countColor (column : CountColumn) (value : Int) : CountColor :=
  if value == 0 then .neutralGray
  else
    match column with
    | .new => .accentNew
    | .learning => .accentLearning
    | .due => .accentDue

/-- nodeById finds the tree item with the given identity. -/
def nodeById (s : RState) (nid : Nat) : Option RNode :=
  s.nodes.find? (fun n => n.id == nid)

/-- downwardClosed: every key of the path dictionary has each of its
nonempty take-prefixes present as a key too — the shape `right_nodes`
keeps throughout the build, starting from the empty dictionary. -/
def downwardClosed (m : List (List String × Nat)) : Prop :=
  ∀ k n, lookupKey m k = some n →
    ∀ j, 0 < j → j ≤ k.length → (lookupKey m (k.take j)).isSome = true

end Frontend

namespace Backend

/-- Running one `CREATE TABLE IF NOT EXISTS` succeeds, makes its table
present, preserves every table already present, and is a no-op when its
table already exists. -/
theorem createTable_ifNotExists_ok (db : Database) (t : Table) :
    ∃ db2 : Database, createTable db t true = .ok db2 ∧
      hasTable db2 t.name = true ∧
      (∀ n, hasTable db n = true → hasTable db2 n = true) ∧
      (hasTable db t.name = true → db2 = db) := by
  unfold createTable
  cases h : hasTable db t.name with
  | true => exact ⟨db, by simp [h], h, fun n hn => hn, fun _ => rfl⟩
  | false =>
      refine ⟨⟨db.tables ++ [t]⟩, by simp [h], ?_, ?_, by simp [h]⟩
      · simp [hasTable]
      · intro n hn
        simp only [hasTable, List.any_append] at hn ⊢
        simp [hn]

/-- A `CREATE TABLE IF NOT EXISTS` whose table is already present returns
the store unchanged. -/
theorem createTable_of_present (db : Database) (t : Table)
    (h : hasTable db t.name = true) :
    createTable db t true = .ok db := by
  unfold createTable
  rw [h]
  rfl

/-- create_db is the sequencing of its three CREATE TABLE statements. -/
theorem create_db_eq (db : Database) {d1 d2 d3 : Database}
    (h1 : createTable db decksTable true = .ok d1)
    (h2 : createTable d1 cardTypesTable true = .ok d2)
    (h3 : createTable d2 cardsTable true = .ok d3) :
    create_db db = .ok d3 := by
  simp [create_db, h1, h2, h3, Bind.bind, Except.bind]

/-- C5: calling the schema initializer twice in succession does not raise
and does not duplicate tables — the second call returns the exact store
the first call produced, in which the decks, card_types and cards tables
are present. -/
theorem create_db_idempotent :
    ∀ db : Database, ∃ db1 : Database,
      create_db db = .ok db1 ∧
      create_db db1 = .ok db1 ∧
      hasTable db1 "decks" = true ∧
      hasTable db1 "card_types" = true ∧
      hasTable db1 "cards" = true := by
  intro db
  obtain ⟨d1, e1, p1, m1, _⟩ := createTable_ifNotExists_ok db decksTable
  obtain ⟨d2, e2, p2, m2, _⟩ := createTable_ifNotExists_ok d1 cardTypesTable
  obtain ⟨d3, e3, p3, m3, _⟩ := createTable_ifNotExists_ok d2 cardsTable
  have hdecks : hasTable d3 "decks" = true := m3 _ (m2 _ p1)
  have hct : hasTable d3 "card_types" = true := m3 _ p2
  have hcards : hasTable d3 "cards" = true := p3
  refine ⟨d3, create_db_eq db e1 e2 e3, ?_, hdecks, hct, hcards⟩
  exact create_db_eq d3 (createTable_of_present _ _ hdecks)
    (createTable_of_present _ _ hct) (createTable_of_present _ _ hcards)

/-- C6: the card-type insert targets table `notes`, which differs from the
`card_types` table the schema initializer creates, so on a store holding
exactly the initializer's three tables every card-type insert faults with
`no such table`. -/
theorem add_card_type_targets_missing_table :
    "notes" ≠ "card_types" ∧
    initializedDb.tables.map Table.name = ["decks", "card_types", "cards"] ∧
    ∀ (fields_json : String) (tags : Option String) (modified_at : Int),
      add_card_type initializedDb fields_json tags modified_at =
        .error "no such table: notes" := by
  refine ⟨by decide, by rfl, ?_⟩
  intro fields_json tags modified_at
  rfl

/-- Witness for C6 at a concrete card-type insert. -/
theorem add_card_type_targets_missing_table_check :
    add_card_type initializedDb "fields" (some "tag") 42 =
      .error "no such table: notes" :=
  add_card_type_targets_missing_table.2.2 "fields" (some "tag") 42

/-- C10: an explicit due time of 0 is falsy for Python's `or`, so the call
behaves exactly as if no due time were supplied — the default of creation
time plus 86400 is computed, and the whole insert result coincides with
the no-due-time call. -/
theorem add_card_zero_due_uses_default :
    ∀ (db : Database) (card_type_id deck_id card_ord : Int)
      (template_front template_back : String) (is_active : Bool)
      (created_at : Int),
      computeNextDue (some 0) created_at = created_at + 86400 ∧
      add_card db card_type_id deck_id card_ord template_front template_back
          (some 0) is_active created_at =
        add_card db card_type_id deck_id card_ord template_front template_back
          none is_active created_at := by
  intro db card_type_id deck_id card_ord template_front template_back is_active created_at
  exact ⟨rfl, rfl⟩

/-- C1: at the failing input — a fresh initialized store,
`add_card(card_type_id=1, deck_id=2, card_ord=3, "front", "back")` with no
explicit due time at creation time 1000 — the card row's next_due field
stores the creation time 1000 itself, not 1000 + 86400 = 87400; the
computed default 87400 lands in the template_front field instead, because
the VALUES tuple of the source INSERT is misaligned with its column
list. -/
theorem add_card_next_due_stores_created_at :
    storedCardField cardBugDb "next_due" = some (SqlValue.int 1000) ∧
    storedCardField cardBugDb "template_front" = some (SqlValue.int 87400) ∧
    computeNextDue none 1000 = 87400 ∧
    SqlValue.int 1000 ≠ SqlValue.int 87400 := by
  decide

/-- C2: at the same failing input as C1, the supplied arguments are not
stored in their corresponding fields: card_ord stores int(is_active) = 1
instead of the ordinal 3, created_at stores the ordinal 3 instead of the
creation time 1000, template_front stores the integer due time 87400
instead of "front", template_back stores "front" instead of "back", and
is_active stores "back" instead of 1; only card_type_id and deck_id line
up. -/
theorem add_card_values_misaligned :
    storedCardField cardBugDb "card_type_id" = some (SqlValue.int 1) ∧
    storedCardField cardBugDb "deck_id" = some (SqlValue.int 2) ∧
    storedCardField cardBugDb "card_ord" = some (SqlValue.int 1) ∧
    storedCardField cardBugDb "created_at" = some (SqlValue.int 3) ∧
    storedCardField cardBugDb "template_front" = some (SqlValue.int 87400) ∧
    storedCardField cardBugDb "template_back" = some (SqlValue.text "front") ∧
    storedCardField cardBugDb "is_active" = some (SqlValue.text "back") ∧
    SqlValue.int 1 ≠ SqlValue.int 3 ∧
    SqlValue.int 3 ≠ SqlValue.int 1000 ∧
    SqlValue.int 87400 ≠ SqlValue.text "front" ∧
    SqlValue.text "front" ≠ SqlValue.text "back" ∧
    SqlValue.text "back" ≠ SqlValue.int 1 := by
  decide

end Backend

namespace Frontend

/-- Looking a key up in an empty dictionary finds nothing. -/
theorem lookupKey_nil (k : List String) : lookupKey [] k = none := rfl

/-- Dictionary lookup after adding one binding: the new key shadows
nothing (keys are checked front to back). -/
theorem lookupKey_cons (k0 : List String) (n0 : Nat)
    (m : List (List String × Nat)) (k : List String) :
    lookupKey ((k0, n0) :: m) k = if k0 = k then some n0 else lookupKey m k := by
  unfold lookupKey
  by_cases h : k0 = k
  · subst h
    rw [List.find?_cons_of_pos _ (by simp)]
    simp
  · rw [List.find?_cons_of_neg _ (by simp [h])]
    simp [h]

/-- A key that looks up to nothing is not among the dictionary's keys. -/
theorem not_mem_keys_of_lookupKey_none (m : List (List String × Nat))
    (k : List String) (h : lookupKey m k = none) : k ∉ m.map Prod.fst := by
  induction m with
  | nil => simp
  | cons e rest ih =>
      obtain ⟨k0, n0⟩ := e
      rw [lookupKey_cons] at h
      by_cases hk : k0 = k
      · simp [hk] at h
      · simp only [hk, if_false] at h
        simp only [List.map_cons, List.mem_cons]
        push_neg
        exact ⟨fun he => hk he.symm, ih h⟩

end Frontend

namespace Frontend

/-- C9: the startup toolkit selection attempts the PySide6 binding first;
when it is unavailable it attempts PyQt5; it raises the unrecoverable
install-one-of-them failure exactly when both bindings are absent. -/
theorem qt_backend_fallback :
    ∀ pyside6Available pyqt5Available : Bool,
      (pyside6Available = true →
        selectQtBackend pyside6Available pyqt5Available = .ok .pyside6) ∧
      (pyside6Available = false → pyqt5Available = true →
        selectQtBackend pyside6Available pyqt5Available = .ok .pyqt5) ∧
      ((selectQtBackend pyside6Available pyqt5Available).isOk = false ↔
        (pyside6Available = false ∧ pyqt5Available = false)) ∧
      (pyside6Available = false → pyqt5Available = false →
        selectQtBackend pyside6Available pyqt5Available =
          .error "PySide6 or PyQt5 is required to run this script. Install with `pip install PySide6` or `pip install PyQt5`.") := by
  intro a b
  cases a <;> cases b <;>
    simp [selectQtBackend, Except.isOk, Except.toBool]

/-- Witness for C9: with PySide6 absent and PyQt5 present the second
binding is chosen. -/
theorem qt_backend_fallback_check :
    selectQtBackend false true = .ok .pyqt5 :=
  (qt_backend_fallback false true).2.1 rfl rfl

/-- C8: the Decks toolbar action starts checked, it is checked after any
sequence of interface interactions, and clicking Decks from any state at
all forces it back to checked. -/
theorem decks_action_always_checked :
    initUIState.decksChecked = true ∧
    (∀ events : List UIEvent,
      (events.foldl uiStep initUIState).decksChecked = true) ∧
    (∀ s : UIState, (uiStep s UIEvent.clickDecks).decksChecked = true) := by
  have step_pres : ∀ (s : UIState) (e : UIEvent),
      s.decksChecked = true → (uiStep s e).decksChecked = true := by
    intro s e h
    cases e <;> simp [uiStep, on_decks_toggled, open_blank_window, h]
  have reach : ∀ (events : List UIEvent) (s : UIState), s.decksChecked = true →
      (events.foldl uiStep s).decksChecked = true := by
    intro events
    induction events with
    | nil => intro s h; exact h
    | cons e rest ih => intro s h; exact ih _ (step_pres s e h)
  exact ⟨rfl, fun events => reach events initUIState rfl, fun s => rfl⟩

/-- C7: under the count colour policy a zero count renders in the neutral
gray tone, while a nonzero count renders in the fixed accent colour bound
to its column, independent of the value's magnitude. -/
theorem count_color_policy :
    ∀ (column : CountColumn) (value : Int),
      (value = 0 → countColor column value = .neutralGray) ∧
      (value ≠ 0 → countColor column value ≠ .neutralGray) ∧
      (value ≠ 0 →
        countColor column value =
          (match column with
           | .new => .accentNew
           | .learning => .accentLearning
           | .due => .accentDue)) ∧
      (∀ value2 : Int, value ≠ 0 → value2 ≠ 0 →
        countColor column value = countColor column value2) := by
  intro column value
  refine ⟨fun h => by simp [countColor, h], fun h => ?_, fun h => ?_, fun v2 h h2 => ?_⟩
  · cases column <;> simp [countColor, h]
  · simp [countColor, h]
  · cases column <;> simp [countColor, h, h2]

/-- Witness for C7: a nonzero new count of 7 and one of 9000 both take
the new-column accent, while a zero due count takes the gray tone. -/
theorem count_color_policy_check :
    countColor CountColumn.new 7 = CountColor.accentNew ∧
    countColor CountColumn.due 0 = CountColor.neutralGray ∧
    countColor CountColumn.new 7 = countColor CountColumn.new 9000 :=
  ⟨(count_color_policy CountColumn.new 7).2.2.1 (by decide),
   (count_color_policy CountColumn.due 0).1 rfl,
   (count_color_policy CountColumn.new 7).2.2.2 9000 (by decide) (by decide)⟩

end Frontend

namespace Frontend

/-- A child found by the walk lies in the node store. -/
theorem mem_nodes_of_mem_childrenOf (s : RState) (parent : Option Nat)
    (m : RNode) (h : m ∈ childrenOf s parent) : m ∈ s.nodes :=
  (List.mem_filter.mp h).1

/-- Every child item is one of the recorded parents for later scans. -/
theorem child_mem_parentsList (s : RState) (parent : Option Nat) (m : RNode)
    (h : m ∈ childrenOf s parent) : some m.id ∈ parentsList s :=
  List.mem_cons_of_mem _
    (List.mem_map.mpr ⟨m, mem_nodes_of_mem_childrenOf s parent m h, rfl⟩)

/-- When no two list elements share a name, the linear first-match scan
finds exactly the member with the sought name. -/
theorem find_eq_of_nodup_names (l : List RNode) (target : String)
    (hnd : (l.map RNode.name).Nodup) (n : RNode) (hn : n ∈ l)
    (hname : n.name = target) :
    l.find? (fun c => c.name == target) = some n := by
  induction l with
  | nil => cases hn
  | cons a rest ih =>
      rw [List.map_cons, List.nodup_cons] at hnd
      rcases List.mem_cons.mp hn with h | h
      · subst h
        exact List.find?_cons_of_pos _ (by simp [hname])
      · have hna : a.name ≠ target := by
          intro he
          exact hnd.1 (List.mem_map.mpr ⟨n, h, hname.trans he.symm⟩)
        rw [List.find?_cons_of_neg _ (by simp [hna])]
        exact ih hnd.2 h

/-- Soundness of the walk: an item it returns lies at the walked path. -/
theorem walkMatch_mem (s : RState) :
    ∀ (path : List String) (parent : Option Nat) (m : RNode),
      walkMatch s parent path = some m → m ∈ nodesAtPath s parent path := by
  intro path
  induction path with
  | nil => intro parent m h; simp [walkMatch] at h
  | cons part rest ih =>
      intro parent m h
      cases rest with
      | nil =>
          simp only [walkMatch, find_node_containing] at h
          simp only [nodesAtPath]
          have hp := List.find?_some h
          exact List.mem_filter.mpr ⟨List.mem_of_find?_eq_some h, hp⟩
      | cons p2 rest2 =>
          simp only [walkMatch, find_node_containing] at h
          cases hf : (childrenOf s parent).find? (fun c => c.name == part) with
          | none => rw [hf] at h; cases h
          | some m1 =>
              rw [hf] at h
              simp only [nodesAtPath, List.mem_flatMap]
              have hp := List.find?_some hf
              refine ⟨m1, List.mem_filter.mpr
                ⟨List.mem_of_find?_eq_some hf, hp⟩, ?_⟩
              exact ih (some m1.id) m h

/-- Completeness of the walk when sibling names are unique: the walk
reaches any item lying at the walked path. -/
theorem walkMatch_of_mem (s : RState) (hu : uniqueSiblingNames s) :
    ∀ (path : List String) (parent : Option Nat),
      parent ∈ parentsList s →
      ∀ n, n ∈ nodesAtPath s parent path →
        walkMatch s parent path = some n := by
  intro path
  induction path with
  | nil => intro parent hp n hn; simp [nodesAtPath] at hn
  | cons part rest ih =>
      intro parent hp n hn
      cases rest with
      | nil =>
          simp only [nodesAtPath] at hn
          rcases List.mem_filter.mp hn with ⟨hmem, hname⟩
          simp only [walkMatch, find_node_containing]
          exact find_eq_of_nodup_names _ _ (hu parent hp) n hmem
            (by simpa using hname)
      | cons p2 rest2 =>
          simp only [nodesAtPath, List.mem_flatMap] at hn
          rcases hn with ⟨m1, hm1, hn⟩
          rcases List.mem_filter.mp hm1 with ⟨hmem1, hname1⟩
          simp only [walkMatch, find_node_containing]
          rw [find_eq_of_nodup_names _ _ (hu parent hp) m1 hmem1
            (by simpa using hname1)]
          exact ih (some m1.id)
            (child_mem_parentsList s parent m1 hmem1) n hn

/-- C4: for any selected primary-tree node (given by its reconstructed
root-to-leaf path) against a secondary tree whose sibling names are
unique: if the secondary tree contains an item at the same path, that
item becomes the secondary tree's current item and the selected path is
reported; if no item lies at the path, the selection is cleared and the
not-found status message is shown. -/
theorem selection_sync (s : RState) (path_parts : List String)
    (hu : uniqueSiblingNames s) :
    (∀ n ∈ nodesAtPath s none path_parts,
      onTreeSelectionChanged s path_parts =
        ⟨some n.id, "Selected deck: " ++ String.intercalate " / " path_parts⟩) ∧
    (nodesAtPath s none path_parts = [] →
      onTreeSelectionChanged s path_parts =
        ⟨none, "Selected deck not found on right pane"⟩) := by
  constructor
  · intro n hn
    unfold onTreeSelectionChanged
    rw [walkMatch_of_mem s hu path_parts none (by simp [parentsList]) n hn]
  · intro hempty
    unfold onTreeSelectionChanged
    cases hw : walkMatch s none path_parts with
    | none => rfl
    | some m =>
        have := walkMatch_mem s path_parts none m hw
        rw [hempty] at this
        cases this

/-- Witness for C4 on the demo tree: the path Languages/Japanese is found
and selected; the path Languages/German has no counterpart, so the
selection is cleared and the not-found message shown. -/
theorem selection_sync_check :
    onTreeSelectionChanged demoRightState ["Languages", "Japanese"] =
      ⟨some 2, "Selected deck: Languages / Japanese"⟩ ∧
    onTreeSelectionChanged demoRightState ["Languages", "German"] =
      ⟨none, "Selected deck not found on right pane"⟩ := by
  constructor
  · have h := (selection_sync demoRightState ["Languages", "Japanese"]
      (by decide)).1 ⟨2, "Japanese", some 1, "7", "2", "13"⟩ (by decide)
    exact h.trans (by decide)
  · exact (selection_sync demoRightState ["Languages", "German"]
      (by decide)).2 (by decide)

end Frontend

namespace Frontend

/-- Adding a fresh binding preserves every existing lookup. -/
theorem lookupKey_cons_preserve (k0 : List String) (n0 : Nat)
    (m : List (List String × Nat)) (h : lookupKey m k0 = none) :
    ∀ k v, lookupKey m k = some v → lookupKey ((k0, n0) :: m) k = some v := by
  intro k v hv
  rw [lookupKey_cons]
  by_cases he : k0 = k
  · subst he; rw [hv] at h; cases h
  · simp [he, hv]

/-- Adding a fresh binding preserves lookup success. -/
theorem lookupKey_cons_isSome (k0 : List String) (n0 : Nat)
    (m : List (List String × Nat)) (k : List String)
    (h : (lookupKey m k).isSome = true) :
    (lookupKey ((k0, n0) :: m) k).isSome = true := by
  rw [lookupKey_cons]
  by_cases he : k0 = k
  · simp [he]
  · simpa [he] using h

/-- Adding a binding for an absent key keeps the key list duplicate
free. -/
theorem keys_nodup_cons (k0 : List String) (n0 : Nat)
    (m : List (List String × Nat)) (h : lookupKey m k0 = none)
    (hnd : (m.map Prod.fst).Nodup) :
    ((((k0, n0)) :: m).map Prod.fst).Nodup := by
  rw [List.map_cons, List.nodup_cons]
  exact ⟨not_mem_keys_of_lookupKey_none m k0 h, hnd⟩

/-- Taking at most all-but-last elements commutes with dropping the last
element. -/
theorem take_dropLast_eq {α : Type} (l : List α) (j : Nat)
    (h : j ≤ l.length - 1) : l.dropLast.take j = l.take j := by
  rw [List.dropLast_eq_take l, List.take_take]
  congr 1
  omega

/-- A memoised path is returned together with the unchanged state. -/
theorem getOrCreateAux_hit (fuel : Nat) (s : RState) (parts : List String)
    (n : Nat) (h : lookupKey s.right_nodes parts = some n) :
    getOrCreateRightNodeAux fuel s parts = some (n, s) := by
  rcases parts with _ | ⟨a, _ | ⟨b, rest⟩⟩ <;> rcases fuel with _ | f <;>
    simp only [getOrCreateRightNodeAux, h]

/-- An unmemoised empty path produces no item. -/
theorem getOrCreateAux_nil (fuel : Nat) (s : RState)
    (h : lookupKey s.right_nodes [] = none) :
    getOrCreateRightNodeAux fuel s [] = none := by
  rcases fuel with _ | f <;> simp only [getOrCreateRightNodeAux, h]

/-- An unmemoised multi-segment path with exhausted recursion depth
produces no item (unreachable under an adequate depth bound). -/
theorem getOrCreateAux_zero (s : RState) (a b : String) (rest : List String)
    (h : lookupKey s.right_nodes (a :: b :: rest) = none) :
    getOrCreateRightNodeAux 0 s (a :: b :: rest) = none := by
  simp only [getOrCreateRightNodeAux, h]

/-- An unmemoised single-segment path creates a top-level item. -/
theorem getOrCreateAux_single (fuel : Nat) (s : RState) (a : String)
    (h : lookupKey s.right_nodes [a] = none) :
    getOrCreateRightNodeAux fuel s [a] =
      some (s.nextId,
        ⟨([a], s.nextId) :: s.right_nodes,
         s.nodes ++ [⟨s.nextId, a, none, "", "", ""⟩], s.nextId + 1⟩) := by
  rcases fuel with _ | f <;> simp only [getOrCreateRightNodeAux, h]

/-- An unmemoised multi-segment path whose recursive call fails produces
no item. -/
theorem getOrCreateAux_step_none (f : Nat) (s : RState) (a b : String)
    (rest : List String)
    (h : lookupKey s.right_nodes (a :: b :: rest) = none)
    (hrec : getOrCreateRightNodeAux f s ((a :: b :: rest).dropLast) = none) :
    getOrCreateRightNodeAux (f + 1) s (a :: b :: rest) = none := by
  simp only [getOrCreateRightNodeAux, h, hrec]

/-- An unmemoised multi-segment path creates an item under the
recursively obtained parent. -/
theorem getOrCreateAux_step_some (f : Nat) (s : RState) (a b : String)
    (rest : List String)
    (h : lookupKey s.right_nodes (a :: b :: rest) = none)
    (p : Nat) (s2 : RState)
    (hrec : getOrCreateRightNodeAux f s ((a :: b :: rest).dropLast) =
      some (p, s2)) :
    getOrCreateRightNodeAux (f + 1) s (a :: b :: rest) =
      some (s2.nextId,
        ⟨(a :: b :: rest, s2.nextId) :: s2.right_nodes,
         s2.nodes ++
           [⟨s2.nextId, (a :: b :: rest).getLastD "", some p, "", "", ""⟩],
         s2.nextId + 1⟩) := by
  simp only [getOrCreateRightNodeAux, h, hrec]

end Frontend

namespace Frontend

/-- Invariants of one get-or-create call on a downward-closed dictionary:
existing bindings are preserved, the requested path ends up bound to the
returned item, key duplicate-freedom is preserved, every nonempty prefix
of the requested path ends up bound, downward closure is preserved, and
the only new keys are prefixes of the requested path. -/
theorem getOrCreateAux_spec :
    ∀ (fuel : Nat) (s : RState) (parts : List String) (nid : Nat) (s1 : RState),
      getOrCreateRightNodeAux fuel s parts = some (nid, s1) →
      downwardClosed s.right_nodes →
      (∀ k v, lookupKey s.right_nodes k = some v →
        lookupKey s1.right_nodes k = some v) ∧
      lookupKey s1.right_nodes parts = some nid ∧
      ((s.right_nodes.map Prod.fst).Nodup → (s1.right_nodes.map Prod.fst).Nodup) ∧
      (∀ j, 0 < j → j ≤ parts.length →
        (lookupKey s1.right_nodes (parts.take j)).isSome = true) ∧
      downwardClosed s1.right_nodes ∧
      (∀ k, (lookupKey s1.right_nodes k).isSome = true →
        (lookupKey s.right_nodes k).isSome = true ∨
        ∃ j, 0 < j ∧ j ≤ parts.length ∧ k = parts.take j) := by
  intro fuel
  induction fuel with
  | zero =>
      intro s parts nid s1 heq hdc
      cases hl : lookupKey s.right_nodes parts with
      | some n =>
          rw [getOrCreateAux_hit 0 s parts n hl] at heq
          injection heq with h1
          injection h1 with hnid hs1
          subst hnid; subst hs1
          exact ⟨fun k v hv => hv, hl, fun hnd => hnd,
            fun j hj0 hjl => hdc parts n hl j hj0 hjl, hdc,
            fun k hk => Or.inl hk⟩
      | none =>
          rcases parts with _ | ⟨a, _ | ⟨b, rest⟩⟩
          · rw [getOrCreateAux_nil 0 s hl] at heq; cases heq
          · rw [getOrCreateAux_single 0 s a hl] at heq
            injection heq with h1
            injection h1 with hnid hs1
            subst hnid; subst hs1
            refine ⟨lookupKey_cons_preserve [a] s.nextId s.right_nodes hl, ?_, ?_, ?_, ?_, ?_⟩
            · rw [lookupKey_cons]; simp
            · exact fun hnd => keys_nodup_cons [a] s.nextId s.right_nodes hl hnd
            · intro j hj0 hjl
              have hj1 : j = 1 := by simpa using Nat.le_antisymm hjl hj0
              subst hj1
              rw [List.take_one]
              simp [lookupKey_cons]
            · intro k n hkn j hj0 hjl
              rw [lookupKey_cons] at hkn
              by_cases hka : [a] = k
              · subst hka
                have hj1 : j = 1 := by simpa using Nat.le_antisymm hjl hj0
                subst hj1
                rw [List.take_one]
                simp [lookupKey_cons]
              · rw [if_neg hka] at hkn
                have := hdc k n hkn j hj0 hjl
                exact lookupKey_cons_isSome [a] s.nextId s.right_nodes (k.take j) this
            · intro k hk
              rw [lookupKey_cons] at hk
              by_cases hka : [a] = k
              · exact Or.inr ⟨1, Nat.one_pos, by simp, by rw [← hka]; simp⟩
              · rw [if_neg hka] at hk
                exact Or.inl hk
          · rw [getOrCreateAux_zero s a b rest hl] at heq; cases heq
  | succ f ih =>
      intro s parts nid s1 heq hdc
      cases hl : lookupKey s.right_nodes parts with
      | some n =>
          rw [getOrCreateAux_hit (f + 1) s parts n hl] at heq
          injection heq with h1
          injection h1 with hnid hs1
          subst hnid; subst hs1
          exact ⟨fun k v hv => hv, hl, fun hnd => hnd,
            fun j hj0 hjl => hdc parts n hl j hj0 hjl, hdc,
            fun k hk => Or.inl hk⟩
      | none =>
          rcases parts with _ | ⟨a, _ | ⟨b, rest⟩⟩
          · rw [getOrCreateAux_nil (f + 1) s hl] at heq; cases heq
          · rw [getOrCreateAux_single (f + 1) s a hl] at heq
            injection heq with h1
            injection h1 with hnid hs1
            subst hnid; subst hs1
            refine ⟨lookupKey_cons_preserve [a] s.nextId s.right_nodes hl, ?_, ?_, ?_, ?_, ?_⟩
            · rw [lookupKey_cons]; simp
            · exact fun hnd => keys_nodup_cons [a] s.nextId s.right_nodes hl hnd
            · intro j hj0 hjl
              have hj1 : j = 1 := by simpa using Nat.le_antisymm hjl hj0
              subst hj1
              rw [List.take_one]
              simp [lookupKey_cons]
            · intro k n hkn j hj0 hjl
              rw [lookupKey_cons] at hkn
              by_cases hka : [a] = k
              · subst hka
                have hj1 : j = 1 := by simpa using Nat.le_antisymm hjl hj0
                subst hj1
                rw [List.take_one]
                simp [lookupKey_cons]
              · rw [if_neg hka] at hkn
                have := hdc k n hkn j hj0 hjl
                exact lookupKey_cons_isSome [a] s.nextId s.right_nodes (k.take j) this
            · intro k hk
              rw [lookupKey_cons] at hk
              by_cases hka : [a] = k
              · exact Or.inr ⟨1, Nat.one_pos, by simp, by rw [← hka]; simp⟩
              · rw [if_neg hka] at hk
                exact Or.inl hk
          · cases hrec : getOrCreateRightNodeAux f s ((a :: b :: rest).dropLast) with
            | none =>
                rw [getOrCreateAux_step_none f s a b rest hl hrec] at heq
                cases heq
            | some pr =>
                obtain ⟨p, s2⟩ := pr
                rw [getOrCreateAux_step_some f s a b rest hl p s2 hrec] at heq
                injection heq with h1
                injection h1 with hnid hs1
                subst hnid; subst hs1
                obtain ⟨ih1, ih2, ih3, ih4, ih5, ih6⟩ :=
                  ih s ((a :: b :: rest).dropLast) p s2 hrec hdc
                have hdrop : ((a :: b :: rest).dropLast).length = rest.length + 1 := by
                  rw [List.length_dropLast]
                  simp
                have hF : lookupKey s2.right_nodes (a :: b :: rest) = none := by
                  cases hF2 : lookupKey s2.right_nodes (a :: b :: rest) with
                  | none => rfl
                  | some q =>
                      exfalso
                      have hsome : (lookupKey s2.right_nodes (a :: b :: rest)).isSome = true := by
                        rw [hF2]; rfl
                      rcases ih6 _ hsome with hins | ⟨j, hj0, hjle, hkeq⟩
                      · rw [hl] at hins; cases hins
                      · have hlen := congrArg List.length hkeq
                        rw [List.length_take] at hlen
                        rw [hdrop] at hlen hjle
                        simp at hlen
                        omega
                have P4 : ∀ j, 0 < j → j ≤ (a :: b :: rest).length →
                    (lookupKey ((a :: b :: rest, s2.nextId) :: s2.right_nodes)
                      ((a :: b :: rest).take j)).isSome = true := by
                  intro j hj0 hjl
                  by_cases hj : j ≤ rest.length + 1
                  · have h2 := ih4 j hj0 (by rw [hdrop]; exact hj)
                    rw [take_dropLast_eq (a :: b :: rest) j (by simp; omega)] at h2
                    exact lookupKey_cons_isSome _ _ _ _ h2
                  · have hj2 : j = rest.length + 2 := by
                      simp at hjl
                      omega
                    have hfull : (a :: b :: rest).take j = a :: b :: rest :=
                      List.take_of_length_le (by simp; omega)
                    rw [hfull, lookupKey_cons]
                    simp
                refine ⟨?_, ?_, ?_, P4, ?_, ?_⟩
                · exact fun k v hv =>
                    lookupKey_cons_preserve _ _ _ hF k v (ih1 k v hv)
                · rw [lookupKey_cons]; simp
                · exact fun hnd => keys_nodup_cons _ _ _ hF (ih3 hnd)
                · intro k n hkn j hj0 hjl
                  rw [lookupKey_cons] at hkn
                  by_cases hka : (a :: b :: rest) = k
                  · subst hka
                    exact P4 j hj0 hjl
                  · rw [if_neg hka] at hkn
                    exact lookupKey_cons_isSome _ _ _ _ (ih5 k n hkn j hj0 hjl)
                · intro k hk
                  rw [lookupKey_cons] at hk
                  by_cases hka : (a :: b :: rest) = k
                  · refine Or.inr ⟨rest.length + 2, by omega, by simp, ?_⟩
                    rw [← hka]
                    exact (List.take_of_length_le (by simp)).symm
                  · rw [if_neg hka] at hk
                    rcases ih6 k hk with hins | ⟨j, hj0, hjle, hkeq⟩
                    · exact Or.inl hins
                    · rw [hdrop] at hjle
                      refine Or.inr ⟨j, hj0, by simp; omega, ?_⟩
                      rw [hkeq]
                      exact take_dropLast_eq (a :: b :: rest) j (by simp; omega)

end Frontend

namespace Frontend

/-- The path dictionary is untouched by the three setText calls. -/
theorem setCountTexts_right_nodes (s : RState) (nid : Nat)
    (c : Int × Int × Int) :
    (setCountTexts s nid c).right_nodes = s.right_nodes := rfl

/-- The empty dictionary is downward closed. -/
theorem downwardClosed_nil : downwardClosed [] := by
  intro k n h
  simp [lookupKey] at h

/-- Invariants of the fill-counts loop: existing bindings are preserved,
key duplicate-freedom and downward closure are preserved, and every
nonempty prefix of every processed entry's path ends up bound. -/
theorem fillCounts_spec :
    ∀ (entries : List (List String × (Int × Int × Int))) (s s1 : RState),
      fillCounts s entries = some s1 →
      downwardClosed s.right_nodes →
      (s.right_nodes.map Prod.fst).Nodup →
      (∀ k v, lookupKey s.right_nodes k = some v →
        lookupKey s1.right_nodes k = some v) ∧
      (s1.right_nodes.map Prod.fst).Nodup ∧
      downwardClosed s1.right_nodes ∧
      (∀ p c, (p, c) ∈ entries → ∀ j, 0 < j → j ≤ p.length →
        (lookupKey s1.right_nodes (p.take j)).isSome = true) := by
  intro entries
  induction entries with
  | nil =>
      intro s s1 heq hdc hnd
      simp only [fillCounts] at heq
      injection heq with h1
      subst h1
      exact ⟨fun k v hv => hv, hnd, hdc, by simp⟩
  | cons e rest ih =>
      obtain ⟨path, counts⟩ := e
      intro s s1 heq hdc hnd
      cases hg : getOrCreateRightNode s path with
      | none =>
          simp only [fillCounts, hg] at heq
          cases heq
      | some pr =>
          obtain ⟨nid, s2⟩ := pr
          simp only [fillCounts, hg] at heq
          have hga : getOrCreateRightNodeAux path.length s path = some (nid, s2) := hg
          obtain ⟨sa1, sa2, sa3, sa4, sa5, sa6⟩ :=
            getOrCreateAux_spec path.length s path nid s2 hga hdc
          obtain ⟨r1, r2, r3, r4⟩ :=
            ih (setCountTexts s2 nid counts) s1 heq sa5 (sa3 hnd)
          refine ⟨fun k v hv => r1 k v (sa1 k v hv), r2, r3, ?_⟩
          intro p c hmem j hj0 hjl
          rcases List.mem_cons.mp hmem with hmem1 | hmem2
          · have hp : p = path := congrArg Prod.fst hmem1
            subst hp
            rcases Option.isSome_iff_exists.mp (sa4 j hj0 hjl) with ⟨v, hv⟩
            rw [r1 _ v hv]
            rfl
          · exact r4 p c hmem2 j hj0 hjl

/-- C3: the tree builder never duplicates an ancestor: after building from
any entry list, the path dictionary binds each key at most once and binds
every nonempty prefix of every entry's path, so two entries sharing a
k-length path prefix resolve — by looking their shared prefixes up — to
the identical ancestor item at each of the first k depths.  In particular
the tree built from the Math/Calculus/Derivatives and
Math/Calculus/Integrals entries contains exactly one item named "Math"
and exactly one named "Calculus", and both leaves hang under the one
Calculus item, which hangs under the one Math item. -/
theorem tree_builder_shared_ancestors :
    (∀ (entries : List (List String × (Int × Int × Int))) (s : RState),
      fillCounts initRState entries = some s →
      (s.right_nodes.map Prod.fst).Nodup ∧
      (∀ p c, (p, c) ∈ entries → ∀ k, 0 < k → k ≤ p.length →
        (lookupKey s.right_nodes (p.take k)).isSome = true) ∧
      (∀ (p1 p2 : List String) (k i : Nat), p1.take k = p2.take k → i ≤ k →
        lookupKey s.right_nodes (p1.take i) =
          lookupKey s.right_nodes (p2.take i))) ∧
    (fillCounts initRState mathEntries = some mathRightState ∧
     (mathRightState.nodes.filter (fun n => n.name == "Math")).length = 1 ∧
     (mathRightState.nodes.filter (fun n => n.name == "Calculus")).length = 1 ∧
     lookupKey mathRightState.right_nodes ["Math"] = some 0 ∧
     lookupKey mathRightState.right_nodes ["Math", "Calculus"] = some 1 ∧
     lookupKey mathRightState.right_nodes ["Math", "Calculus", "Derivatives"] =
       some 2 ∧
     lookupKey mathRightState.right_nodes ["Math", "Calculus", "Integrals"] =
       some 3 ∧
     (nodeById mathRightState 2).map RNode.parent = some (some 1) ∧
     (nodeById mathRightState 3).map RNode.parent = some (some 1) ∧
     (nodeById mathRightState 1).map RNode.parent = some (some 0) ∧
     (nodeById mathRightState 0).map RNode.parent = some none) := by
  constructor
  · intro entries s heq
    obtain ⟨r1, r2, r3, r4⟩ :=
      fillCounts_spec entries initRState s heq downwardClosed_nil (by decide)
    refine ⟨r2, fun p c hmem k hk0 hkl => r4 p c hmem k hk0 hkl, ?_⟩
    intro p1 p2 k i hpre hik
    have e1 : (p1.take k).take i = p1.take i := by
      rw [List.take_take]
      congr 1
      omega
    have e2 : (p2.take k).take i = p2.take i := by
      rw [List.take_take]
      congr 1
      omega
    rw [← e1, ← e2, hpre]
  · decide

/-- Witness for C3 on the two Math entries: both leaves' length-2 shared
prefix resolves to the same present ancestor. -/
theorem tree_builder_shared_ancestors_check :
    (lookupKey mathRightState.right_nodes
        (["Math", "Calculus", "Derivatives"].take 2)).isSome = true ∧
    lookupKey mathRightState.right_nodes
        (["Math", "Calculus", "Derivatives"].take 2) =
      lookupKey mathRightState.right_nodes
        (["Math", "Calculus", "Integrals"].take 2) := by
  have h := tree_builder_shared_ancestors.1 mathEntries mathRightState (by decide)
  exact ⟨h.2.1 ["Math", "Calculus", "Derivatives"] (1, 0, 0) (by decide) 2
      (by decide) (by decide),
    h.2.2 ["Math", "Calculus", "Derivatives"] ["Math", "Calculus", "Integrals"]
      2 2 (by decide) (by decide)⟩

end Frontend
